/-
Verification of the bundler-orchestration core of this repository.

The development shallowly embeds the three provided source files:

* `src/crates/rspack_core/src/compiler/mod.rs`
  (`Compiler::compile`, `Compiler::compile_done`, `Compiler::emit_assets`,
  `Compiler::emit_asset`),
* `src/crates/rspack_plugin_entry/src/lib.rs` (`EntryPlugin::make`),
* `src/crates/rspack_binding_options/src/options/raw_builtins/mod.rs`
  (the `TryFrom` conversions for minification match conditions).

Stateful code is embedded as explicit state passing; the asynchronous,
fallible output filesystem is modelled as an association list of files plus a
chronological log of the operations the emission stage issued, with write
failures injected through a `failingWrites` set.  Types that live outside the
provided sources (`Compilation` internals, `MakeParam`, options, the plugin
driver) are modelled from the specification and are marked as such in their
doc comments.
-/
import Mathlib

/-! ## Association-list helpers

`HashMap`s of the source are modelled as association lists.  `lookupAssoc`
finds the first binding of a key, `insertAssoc` replaces the first binding of
a key (or appends), matching map semantics on duplicate-free key lists. -/

/-- First value bound to key `k` in the association list `m`. -/
def lookupAssoc {α : Type} (m : List (String × α)) (k : String) : Option α :=
  match m with
  | [] => none
  | (k₁, v) :: rest => if k₁ = k then some v else lookupAssoc rest k

/-- Replace the first binding of key `k` by `v`, or append `(k, v)`. -/
def insertAssoc {α : Type} (m : List (String × α)) (k : String) (v : α) :
    List (String × α) :=
  match m with
  | [] => [(k, v)]
  | (k₁, v₁) :: rest =>
    if k₁ = k then (k, v) :: rest else (k₁, v₁) :: insertAssoc rest k v

/-- Remove every binding of key `k`. -/
def removeAssoc {α : Type} (m : List (String × α)) (k : String) :
    List (String × α) :=
  m.filter (fun q => q.1 ≠ k)

/-- Insert a string into a list acting as a set (no duplicate is added). -/
def insertUnique (s : List String) (x : String) : List String :=
  if x ∈ s then s else s ++ [x]

/-! ## Path helpers

`emit_asset` strips a query-string suffix (`name.js?v=1` → `name.js`) before
resolving the on-disk path, joins it onto the output path and creates the
parent directory.  These are embedded over the character list of the string
so that every operation is structurally recursive. -/

/-- Characters before the first `'?'` (all of them when there is none). -/
def takeBeforeQuery : List Char → List Char
  | [] => []
  | c :: rest => if c = '?' then [] else c :: takeBeforeQuery rest

/-- Embeds `filename.split_once('?')` followed by taking the part before the
query: the filename without its query-string suffix. -/
def stripQuery (s : String) : String :=
  String.mk (takeBeforeQuery s.data)

/-- Embeds `Path::new(dir).join(file)` for a relative `file`. -/
def pathJoin (dir file : String) : String :=
  dir ++ "/" ++ file

/-- Drop characters up to and including the first `'/'`. -/
def dropUntilSlash : List Char → List Char
  | [] => []
  | c :: rest => if c = '/' then rest else dropUntilSlash rest

/-- Embeds `file_path.parent()`: everything before the last `'/'`.  Paths
built by `pathJoin` always contain a `'/'`, so the `panic!` branch of the
source for a parentless path is unreachable on every path this development
constructs. -/
def parentDir (p : String) : String :=
  String.mk (dropUntilSlash p.data.reverse).reverse

/-- Does `q` lie inside directory `dir` (or equal it)?  Used to give
`remove_dir_all` its recursive-removal semantics. -/
def charsBegin : List Char → List Char → Bool
  | [], _ => true
  | _ :: _, [] => false
  | a :: as, b :: bs => a == b && charsBegin as bs

/-- Tests whether `q` is `dir` itself or a path below `dir`. -/
def underPath (dir q : String) : Bool :=
  charsBegin (dir ++ "/").data q.data || q == dir

/-! ## The output filesystem

Modelled from the spec: the filesystem contract consumed by the compiler is
`create_dir_all`, `write`, `remove_file`, `remove_dir_all`, all asynchronous
and fallible.  The model keeps the files as an association list from path to
content and records every operation issued in a chronological log `ops`
(logged as *attempted*, whether or not the operation succeeds).  Failure is
injected only for `write`, through the `failingWrites` set; the removal and
directory-creation operations are modelled as always succeeding, so the `?`
propagation the source applies to them can never fire in the model. -/

/-- A filesystem-level error: the write of `path` failed. -/
inductive FsError where
  | writeFailed (path : String)
deriving Repr, DecidableEq

/-- One operation issued against the output filesystem. -/
inductive FsOp where
  | create_dir_all (path : String)
  | write (path : String) (content : String)
  | remove_file (path : String)
  | remove_dir_all (path : String)
deriving Repr, DecidableEq

/-- The output filesystem state: current files, the injected set of paths
whose write fails, and the log of operations issued so far. -/
structure OutputFileSystem where
  files : List (String × String)
  failingWrites : List String
  ops : List FsOp
deriving Repr, DecidableEq

/-- Embeds `create_dir_all`: directories are implicit in the file-map model, so this
only logs the operation. -/
def OutputFileSystem.create_dir_all (fs : OutputFileSystem) (p : String) :
    OutputFileSystem :=
  { fs with ops := fs.ops ++ [FsOp.create_dir_all p] }

/-- Embeds `write`: logs the attempt; fails without touching the files when `p` is
in the injected failure set, otherwise stores the content. -/
def OutputFileSystem.write (fs : OutputFileSystem) (p content : String) :
    OutputFileSystem × Except FsError Unit :=
  let fs1 := { fs with ops := fs.ops ++ [FsOp.write p content] }
  if fs1.failingWrites.contains p then
    (fs1, Except.error (FsError.writeFailed p))
  else
    ({ fs1 with files := insertAssoc fs1.files p content }, Except.ok ())

/-- Embeds `remove_file`: logs the operation and removes the binding of `p`. -/
def OutputFileSystem.remove_file (fs : OutputFileSystem) (p : String) :
    OutputFileSystem :=
  { fs with
    files := removeAssoc fs.files p,
    ops := fs.ops ++ [FsOp.remove_file p] }

/-- Embeds `remove_dir_all`: logs the operation and removes every file at or below
`p` (recursive directory removal). -/
def OutputFileSystem.remove_dir_all (fs : OutputFileSystem) (p : String) :
    OutputFileSystem :=
  { fs with
    files := fs.files.filter (fun q => !underPath p q.1),
    ops := fs.ops ++ [FsOp.remove_dir_all p] }

/-- Is this operation one of the two that asset emission itself issues
(directory creation or a file write)? -/
def FsOp.isEmitOp : FsOp → Bool
  | FsOp.create_dir_all _ => true
  | FsOp.write _ _ => true
  | _ => false

/-- The targets of the `remove_file` operations of a log, in order. -/
def removedFileTargets (ops : List FsOp) : List String :=
  ops.filterMap (fun op =>
    match op with
    | FsOp.remove_file p => some p
    | _ => none)

/-! ## Options and build-state model

Modelled from the spec: `CompilerOptions` lives outside the provided sources;
these structures keep exactly the fields the provided code reads.
`tree_shaking_enable` stands for `builtins.tree_shaking.enable()`,
`side_effects_enable` for `optimization.side_effects.is_enable()`,
`incremental_rebuild_emit_asset` for
`is_incremental_rebuild_emit_asset_enabled()`, and
`incremental_rebuild_make_state` for `get_incremental_rebuild_make_state()`
(`none` when the build is not an incremental rebuild). -/

/-- Modelled from the spec: the make state of an incremental rebuild;
`is_first` tells whether this is the first build generation. -/
structure IncrementalRebuildMakeState where
  is_first : Bool
deriving Repr, DecidableEq

/-- Modelled from the spec: the output options the provided code reads
(`output.clean`, `output.path`, `output.enabled_library_types`). -/
structure OutputOptions where
  clean : Bool
  path : String
  enabled_library_types : Option (List String)
deriving Repr, DecidableEq

/-- Modelled from the spec: the slice of the shared compiler options the
provided code reads. -/
structure CompilerOptions where
  output : OutputOptions
  tree_shaking_enable : Bool
  side_effects_enable : Bool
  no_emit_assets : Bool
  incremental_rebuild_emit_asset : Bool
  incremental_rebuild_make_state : Option IncrementalRebuildMakeState
deriving Repr, DecidableEq

/-- An output asset: its optional content source (`get_source()`) and its
opaque content-version string (`info.version`).  Modelled from the spec:
`CompilationAsset` is defined outside the provided sources. -/
structure CompilationAsset where
  source : Option String
  version : String
deriving Repr, DecidableEq

/-- The event record fired once per physically written asset.  The
`compilation` reference of the source record carries no data the claims
observe and is omitted. -/
structure AssetEmittedArgs where
  filename : String
  output_path : String
  source : String
  target_path : String
deriving Repr, DecidableEq

/-- Modelled from the spec: per-entry options; their contents are opaque to
the provided code, which only stores and copies them. -/
abbrev EntryOptions := Nat

/-- An entry dependency: its allocated stable id and the request string.
Modelled from the spec: dependency ids are allocated before insertion and are
the stable handle used in the graph and the force-build set. -/
structure EntryDependency where
  id : Nat
  request : String
deriving Repr, DecidableEq

/-- Modelled from the spec: the module graph, restricted to what the provided
code touches — the dependency records added to it and the identifiers of the
modules it currently holds. -/
structure ModuleGraph where
  dependencies : List EntryDependency
  modules : List Nat
deriving Repr, DecidableEq

/-- Modelled from the spec: one build's mutable state, restricted to the
fields the provided code reads and writes.  Analysis artifacts (symbol
references, diagnostics, module-item maps) are opaque to the provided code
and are represented by identifier lists. -/
structure Compilation where
  options : CompilerOptions
  assets : List (String × CompilationAsset)
  emitted_assets : List String
  entries : List (String × (Nat × EntryOptions))
  module_graph : ModuleGraph
  used_symbol_ref : List Nat
  bailout_module_identifiers : List Nat
  side_effects_free_modules : List Nat
  module_item_map : List (Nat × Nat)
  include_module_ids : List Nat
  optimize_analyze_result_map : List (Nat × Nat)
  diagnostics : List Nat
deriving Repr, DecidableEq

/-- Embeds `Compilation::push_batch_diagnostic`: append a batch of diagnostics. -/
def Compilation.push_batch_diagnostic (c : Compilation) (batch : List Nat) :
    Compilation :=
  { c with diagnostics := c.diagnostics ++ batch }

/-- Embeds `Compilation::add_entry`: register a named entry, binding the entry name
to the dependency id and its options in the named-entry table. -/
def Compilation.add_entry (c : Compilation) (dep_id : Nat) (name : String)
    (opts : EntryOptions) : Compilation :=
  { c with entries := insertAssoc c.entries name (dep_id, opts) }

/-- Embeds `ModuleGraph::add_dependency`: add a dependency record to the graph. -/
def ModuleGraph.add_dependency (mg : ModuleGraph) (d : EntryDependency) :
    ModuleGraph :=
  { mg with dependencies := mg.dependencies ++ [d] }

/-- Modelled from the spec: `MakeParam` carries the set of dependencies to
force-build in this make round, keyed by dependency id with an optional
originating module.  The provided sources only construct and extend this
variant. -/
inductive MakeParam where
  | forceBuildDeps (deps : List (Nat × Option Nat))
deriving Repr, DecidableEq

/-- The force-build set carried by a `MakeParam`. -/
def MakeParam.deps : MakeParam → List (Nat × Option Nat)
  | MakeParam.forceBuildDeps d => d

/-- Embeds `MakeParam::add_force_build_dependency`: set insertion of a
`(dependency id, originating module)` pair. -/
def MakeParam.add_force_build_dependency (p : MakeParam) (id : Nat)
    (origin : Option Nat) : MakeParam :=
  match p with
  | MakeParam.forceBuildDeps deps =>
    MakeParam.forceBuildDeps
      (if (id, origin) ∈ deps then deps else deps ++ [(id, origin)])

/-! ## `EntryPlugin::make`

Embeds `src/crates/rspack_plugin_entry/src/lib.rs`.  Dependency-id
allocation (`EntryDependency::new` drawing a fresh id from a global counter)
is external nondeterminism; the freshly allocated id is passed in as
`freshId`. -/

/-- The entry plugin: entry name, entry options and the request string. -/
structure EntryPlugin where
  name : String
  options : EntryOptions
  entry_request : String
deriving Repr, DecidableEq

/-- Embeds `EntryPlugin::make`: on an incremental rebuild that is not the
first build generation it returns immediately; otherwise it registers the
entry dependency in the named-entry table, the force-build set and the module
graph.  The source calls `add_force_build_dependency` twice with the same
pair; both calls are kept (the second is absorbed by set insertion). -/
def EntryPlugin.make (self : EntryPlugin) (freshId : Nat)
    (compilation : Compilation) (param : MakeParam) :
    Compilation × MakeParam :=
  match compilation.options.incremental_rebuild_make_state with
  | some state =>
    if !state.is_first then (compilation, param)
    else
      let dependency : EntryDependency := { id := freshId, request := self.entry_request }
      let dependency_id := dependency.id
      let compilation := compilation.add_entry dependency_id self.name self.options
      let param := param.add_force_build_dependency dependency_id none
      let compilation := { compilation with
        module_graph := compilation.module_graph.add_dependency dependency }
      let param := param.add_force_build_dependency dependency_id none
      (compilation, param)
  | none =>
    let dependency : EntryDependency := { id := freshId, request := self.entry_request }
    let dependency_id := dependency.id
    let compilation := compilation.add_entry dependency_id self.name self.options
    let param := param.add_force_build_dependency dependency_id none
    let compilation := { compilation with
      module_graph := compilation.module_graph.add_dependency dependency }
    let param := param.add_force_build_dependency dependency_id none
    (compilation, param)

/-! ## `Compiler::compile`

Embeds the deterministic tail of `Compiler::compile`
(`src/crates/rspack_core/src/compiler/mod.rs`).  The phases that live outside
the provided sources are supplied as oracles: `c0` is the compilation state
as it stands after `make`/`finish_make`/`finish`; `analyze` and
`analyzeDiagnostics` are the two parts `optimize_dependency` would return on
success; `seal` (modelled from the spec: it finalizes the assets) replaces
the assets with `sealAssets`; `pluginDiagnostics` is what
`plugin_driver.take_diagnostic()` drains afterwards. -/

/-- The analysis result produced by `optimize_dependency` (external to the
provided sources; field names follow the fields `compile` reads from it). -/
structure OptimizeAnalyzeResult where
  used_symbol_ref : List Nat
  bail_out_module_identifiers : List Nat
  side_effects_free_modules : List Nat
  module_item_map : List (Nat × Nat)
  include_module_ids : List Nat
  analyze_results : List (Nat × Nat)
deriving Repr, DecidableEq

/-- The outcome of `compile`: the final compilation, plus the
instrumentation flag telling whether `optimize_dependency` was invoked. -/
structure CompileOutcome where
  compilation : Compilation
  ranOptimizeDependency : Bool
deriving Repr, DecidableEq

/-- Embeds `Compiler::compile` from the point where `include_module_ids` is
defaulted to all known modules, through the tree-shaking gate, optional
analysis-field updates and optional narrowing, to `seal` and the final
diagnostic drain. -/
def Compiler.compile (options : CompilerOptions) (c0 : Compilation)
    (analyze : OptimizeAnalyzeResult) (analyzeDiagnostics : List Nat)
    (sealAssets : List (String × CompilationAsset))
    (pluginDiagnostics : List Nat) : CompileOutcome :=
  let c := { c0 with include_module_ids := c0.module_graph.modules }
  if options.tree_shaking_enable
      || ((options.output.enabled_library_types.map
            (fun types => types.any
              (fun item => item == "module" || item == "commonjs-static"))).getD
          false) then
    let c := if analyzeDiagnostics.isEmpty then c
             else c.push_batch_diagnostic analyzeDiagnostics
    let c := { c with
      used_symbol_ref := analyze.used_symbol_ref,
      bailout_module_identifiers := analyze.bail_out_module_identifiers,
      side_effects_free_modules := analyze.side_effects_free_modules,
      module_item_map := analyze.module_item_map }
    let c := if options.tree_shaking_enable && options.side_effects_enable then
        { c with include_module_ids := analyze.include_module_ids }
      else c
    let c := { c with optimize_analyze_result_map := analyze.analyze_results }
    let c := { c with assets := sealAssets }
    let c := c.push_batch_diagnostic pluginDiagnostics
    { compilation := c, ranOptimizeDependency := true }
  else
    let c := { c with assets := sealAssets }
    let c := c.push_batch_diagnostic pluginDiagnostics
    { compilation := c, ranOptimizeDependency := false }

/-- The analysis gate in the words of the spec: global tree-shaking is
enabled, or the output's enabled library types contain `"module"` or
`"commonjs-static"`. -/
def specAnalysisGate (options : CompilerOptions) : Bool :=
  options.tree_shaking_enable
    || (options.output.enabled_library_types.getD []).any
        (fun t => t == "module" || t == "commonjs-static")

/-! ## `Compiler::emit_assets` and `Compiler::emit_asset`

The compiler state carries the fields of `Compiler` the emission stage
touches, plus two instrumentation traces the claims observe: `emitCalls`
records (by original asset filename) each invocation of `emit_asset` by the
current emission stage, and `asset_emitted_events` records each
`asset_emitted` event fired.  The plugin hooks (`emit`, `asset_emitted`,
`after_emit`) are external plugin work; they are modelled as succeeding
no-ops, with `asset_emitted` additionally logged. -/

/-- The compiler state used by asset emission. -/
structure Compiler where
  options : CompilerOptions
  compilation : Compilation
  output_filesystem : OutputFileSystem
  emitted_asset_versions : List (String × String)
  emitCalls : List String
  asset_emitted_events : List AssetEmittedArgs
deriving Repr, DecidableEq

/-- Embeds `Compiler::emit_asset`: an asset without a source does nothing;
otherwise the query suffix is stripped, the parent directory created, the
content written (failure propagates), the stripped filename recorded in the
compilation's emitted-set and the `asset_emitted` event fired. -/
def Compiler.emit_asset (self : Compiler) (output_path : String)
    (filename0 : String) (asset : CompilationAsset) :
    Compiler × Except FsError Unit :=
  match asset.source with
  | none => (self, Except.ok ())
  | some source =>
    let filename := stripQuery filename0
    let file_path := pathJoin output_path filename
    let fs1 := self.output_filesystem.create_dir_all (parentDir file_path)
    let w := fs1.write file_path source
    match w.2 with
    | Except.error e => ({ self with output_filesystem := w.1 }, Except.error e)
    | Except.ok _ =>
      ({ self with
          output_filesystem := w.1,
          compilation := { self.compilation with
            emitted_assets := insertUnique self.compilation.emitted_assets filename },
          asset_emitted_events := self.asset_emitted_events ++
            [{ filename := filename, output_path := output_path,
               source := source, target_path := file_path }] },
        Except.ok ())

/-- The skip test of the emission loop, exactly as the source writes it: a
previously recorded version exists, equals the current one and is
non-empty. -/
def skipsEmit (versions : List (String × String)) (filename : String)
    (asset : CompilationAsset) : Bool :=
  match lookupAssoc versions filename with
  | some old => decide (old = asset.version) && decide (old ≠ "")
  | none => false

/-- The per-asset loop body of `emit_assets`, settled in asset order: for
each asset, record its version into the fresh version map when incremental
emission tracking is enabled, skip it when `skipsEmit` fires, and otherwise
run `emit_asset` and collect its result.  This is the in-order settlement of
the source's concurrently collected `FuturesResults`. -/
def Compiler.emitLoop (st : Compiler) :
    List (String × CompilationAsset) →
      Compiler × List (String × String) × List (Except FsError Unit)
  | [] => (st, [], [])
  | (filename, asset) :: rest =>
    let nvHead : List (String × String) :=
      if st.options.incremental_rebuild_emit_asset then [(filename, asset.version)]
      else []
    if skipsEmit st.emitted_asset_versions filename asset then
      let r := st.emitLoop rest
      (r.1, nvHead ++ r.2.1, r.2.2)
    else
      let st1 := { st with emitCalls := st.emitCalls ++ [filename] }
      let e := st1.emit_asset st.options.output.path filename asset
      let r := e.1.emitLoop rest
      (r.1, nvHead ++ r.2.1, e.2 :: r.2.2)

/-- The stale-file pruning pass of `emit_assets`: remove, from the output
directory, each previously emitted filename that no longer appears in the
current asset set (removal results are discarded by the source). -/
def cleanStaleFiles (fs : OutputFileSystem) (outputPath : String)
    (versions : List (String × String))
    (assets : List (String × CompilationAsset)) : OutputFileSystem :=
  match versions with
  | [] => fs
  | (filename, _) :: rest =>
    let fs := if assets.any (fun q => q.1 == filename) then fs
              else fs.remove_file (pathJoin outputPath filename)
    cleanStaleFiles fs outputPath rest assets

/-- Return the first error of the per-asset results, as the source's
`for item in results.into_inner() { item?; }` does. -/
def firstError : List (Except FsError Unit) → Except FsError Unit
  | [] => Except.ok ()
  | Except.ok _ :: rest => firstError rest
  | Except.error e :: _ => Except.error e

/-- Embeds `Compiler::emit_assets`: optional clean phase (full recursive
removal of the output directory when nothing was ever recorded as emitted,
stale-file pruning otherwise), then the `emit` hook (external no-op), then
the per-asset loop, then the replacement of `emitted_asset_versions` by the
freshly built map, and finally the first error of the settled results (the
`after_emit` hook, an external no-op, runs only when there is none).  The
instrumentation traces (`ops`, `emitCalls`) are reset on entry so they
describe exactly this emission stage. -/
def Compiler.emit_assets (self : Compiler) : Compiler × Except FsError Unit :=
  let self := { self with
    output_filesystem := { self.output_filesystem with ops := [] },
    emitCalls := [] }
  let self :=
    if self.options.output.clean then
      if self.emitted_asset_versions.isEmpty then
        { self with output_filesystem :=
            self.output_filesystem.remove_dir_all self.options.output.path }
      else
        { self with output_filesystem :=
            (cleanStaleFiles self.output_filesystem self.options.output.path
              self.emitted_asset_versions self.compilation.assets) }
    else self
  let r := self.emitLoop self.compilation.assets
  let self := { r.1 with emitted_asset_versions := r.2.1 }
  match firstError r.2.2 with
  | Except.error e => (self, Except.error e)
  | Except.ok _ => (self, Except.ok ())

/-- The outcome `emit_asset` yields for one asset, computed independently of
every other asset: nothing to do without a source, a failure exactly when the
asset's resolved path is in the injected failing set, success otherwise. -/
def assetOutcome (outputPath : String) (failing : List String)
    (filename : String) (asset : CompilationAsset) : Except FsError Unit :=
  match asset.source with
  | none => Except.ok ()
  | some _ =>
    if failing.contains (pathJoin outputPath (stripQuery filename)) then
      Except.error (FsError.writeFailed (pathJoin outputPath (stripQuery filename)))
    else Except.ok ()

/-- The filesystem operations `emit_asset` issues for one asset. -/
def assetOps (outputPath : String) (filename : String)
    (asset : CompilationAsset) : List FsOp :=
  match asset.source with
  | none => []
  | some source =>
    [FsOp.create_dir_all (parentDir (pathJoin outputPath (stripQuery filename))),
     FsOp.write (pathJoin outputPath (stripQuery filename)) source]

/-- The filesystem operations the emission loop issues over a list of
assets. -/
def plannedOps (outputPath : String) (versions : List (String × String)) :
    List (String × CompilationAsset) → List FsOp
  | [] => []
  | (filename, asset) :: rest =>
    (if skipsEmit versions filename asset then []
     else assetOps outputPath filename asset)
      ++ plannedOps outputPath versions rest

/-! ## Minification-condition conversion

Embeds `src/crates/rspack_binding_options/src/options/raw_builtins/mod.rs`.
The source distinguishes two failure modes: the missing-matcher cases return
a `Result::Err` built by `internal_error!`, while an unrecognized `type`
string hits a `panic!`.  The embedding keeps both apart in `ConvError`.
Regular-expression compilation (`RspackRegex::new`) lives outside the
provided sources and is passed in as the fallible oracle `regexNew`. -/

/-- How a conversion fails: a recoverable internal error returned as a
`Result::Err`, or a process-aborting panic. -/
inductive ConvError where
  | internalError (msg : String)
  | panicked (msg : String)
deriving Repr, DecidableEq

/-- A compiled regular expression, kept abstract as its source pattern. -/
structure RspackRegex where
  pattern : String
deriving Repr, DecidableEq

/-- The raw (binding-layer) single minification condition. -/
structure RawMinificationCondition where
  type : String
  string_matcher : Option String
  regexp_matcher : Option String
deriving Repr, DecidableEq

/-- The raw (binding-layer) possibly-aggregated minification conditions. -/
structure RawMinificationConditions where
  type : String
  string_matcher : Option String
  regexp_matcher : Option String
  array_matcher : Option (List RawMinificationCondition)
deriving Repr, DecidableEq

/-- The typed single minification condition. -/
inductive MinificationCondition where
  | string (s : String)
  | regexp (r : RspackRegex)
deriving Repr, DecidableEq

/-- The typed aggregated minification conditions. -/
inductive MinificationConditions where
  | string (s : String)
  | regexp (r : RspackRegex)
  | array (xs : List MinificationCondition)
deriving Repr, DecidableEq

/-- Embeds `TryFrom<RawMinificationCondition> for MinificationCondition`:
`"string"` and `"regexp"` are converted (missing matchers are internal
errors, regex compilation may fail), every other type string panics. -/
def MinificationCondition.try_from
    (regexNew : String → Except ConvError RspackRegex)
    (x : RawMinificationCondition) : Except ConvError MinificationCondition :=
  if x.type = "string" then
    match x.string_matcher with
    | some s => Except.ok (MinificationCondition.string s)
    | none => Except.error (ConvError.internalError
        "should have a string_matcher when MinificationConditions.type is \"string\"")
  else if x.type = "regexp" then
    match x.regexp_matcher with
    | some r =>
      match regexNew r with
      | Except.ok re => Except.ok (MinificationCondition.regexp re)
      | Except.error e => Except.error e
    | none => Except.error (ConvError.internalError
        "should have a regexp_matcher when MinificationConditions.type is \"regexp\"")
  else
    Except.error (ConvError.panicked
      ("Failed to resolve the condition type " ++ x.type
        ++ ". Expected type is `string`, `regexp` or `array`."))

/-- Convert a list of raw conditions, stopping at the first failure, as the
source's `collect::<Result<Vec<_>>>()` does (a panic in an element likewise
stops everything). -/
def convertConditionList (regexNew : String → Except ConvError RspackRegex) :
    List RawMinificationCondition → Except ConvError (List MinificationCondition)
  | [] => Except.ok []
  | x :: rest =>
    match MinificationCondition.try_from regexNew x with
    | Except.error e => Except.error e
    | Except.ok c =>
      match convertConditionList regexNew rest with
      | Except.error e => Except.error e
      | Except.ok cs => Except.ok (c :: cs)

/-- Embeds `TryFrom<RawMinificationConditions> for MinificationConditions`:
`"string"`, `"regexp"` and `"array"` are converted, every other type string
panics (the panic message's typo `MinificationContions` is the source's). -/
def MinificationConditions.try_from
    (regexNew : String → Except ConvError RspackRegex)
    (value : RawMinificationConditions) :
    Except ConvError MinificationConditions :=
  if value.type = "string" then
    match value.string_matcher with
    | some s => Except.ok (MinificationConditions.string s)
    | none => Except.error (ConvError.internalError
        "should have a string_matcher when MinificationConditions.type is \"string\"")
  else if value.type = "regexp" then
    match value.regexp_matcher with
    | some r =>
      match regexNew r with
      | Except.ok re => Except.ok (MinificationConditions.regexp re)
      | Except.error e => Except.error e
    | none => Except.error (ConvError.internalError
        "should have a regexp_matcher when MinificationConditions.type is \"regexp\"")
  else if value.type = "array" then
    match value.array_matcher with
    | some xs =>
      match convertConditionList regexNew xs with
      | Except.ok cs => Except.ok (MinificationConditions.array cs)
      | Except.error e => Except.error e
    | none => Except.error (ConvError.internalError
        "should have a array_matcher when MinificationConditions.type is \"array\"")
  else
    Except.error (ConvError.panicked
      ("Failed to resolve the MinificationContions type " ++ value.type
        ++ ". Expected type is `string`, `regexp`, `array`."))

/-- A regex oracle that always succeeds, for concrete instances. -/
def okRegexBuilder : String → Except ConvError RspackRegex :=
  fun s => Except.ok { pattern := s }

/-- Is a conversion outcome the recoverable internal-error failure mode? -/
def isInternalError {α : Type} : Except ConvError α → Bool
  | Except.error (ConvError.internalError _) => true
  | _ => false

/-- Is a conversion outcome a success? -/
def isOkResult {α : Type} : Except ConvError α → Bool
  | Except.ok _ => true
  | _ => false

/-- The filesystem operations the clean phase of `emit_assets` issues: a
single recursive directory removal when nothing was ever recorded as
emitted, one `remove_file` per stale previously-emitted filename otherwise,
nothing when clean output is not configured. -/
def cleanOps (c : Compiler) : List FsOp :=
  if c.options.output.clean then
    if c.emitted_asset_versions.isEmpty then
      [FsOp.remove_dir_all c.options.output.path]
    else
      (c.emitted_asset_versions.filter (fun fv =>
        !(c.compilation.assets.any (fun q => q.1 == fv.1)))).map
        (fun fv => FsOp.remove_file (pathJoin c.options.output.path fv.1))
  else []

/-- The state of the compiler after the instrumentation reset and the clean
phase of `emit_assets`, before the per-asset loop (a decomposition of
`emit_assets` used by the proofs). -/
def postClean (c : Compiler) : Compiler :=
  let c0 := { c with
    output_filesystem := { c.output_filesystem with ops := [] },
    emitCalls := [] }
  if c0.options.output.clean then
    if c0.emitted_asset_versions.isEmpty then
      { c0 with output_filesystem :=
          c0.output_filesystem.remove_dir_all c0.options.output.path }
    else
      { c0 with output_filesystem :=
          (cleanStaleFiles c0.output_filesystem c0.options.output.path
            c0.emitted_asset_versions c0.compilation.assets) }
  else c0

/-! ## Concrete instances

Small concrete values used to instantiate the theorems below on explicit
inputs. -/

/-- A demo asset with a source and version `"v1"`. -/
def demoAsset1 : CompilationAsset := { source := some "content-a", version := "v1" }

/-- A demo asset with a source and version `"v2"`. -/
def demoAsset2 : CompilationAsset := { source := some "content-b", version := "v2" }

/-- A demo asset with a source and version `"v3"`. -/
def demoAsset3 : CompilationAsset := { source := some "content-c", version := "v3" }

/-- A demo asset whose `get_source()` returns nothing. -/
def demoAssetNone : CompilationAsset := { source := none, version := "v9" }

/-- Demo output options: no clean, output path `"dist"`, no library types. -/
def demoOutput : OutputOptions :=
  { clean := false, path := "dist", enabled_library_types := none }

/-- Demo compiler options: everything off except incremental emission. -/
def demoOptions : CompilerOptions :=
  { output := demoOutput, tree_shaking_enable := false,
    side_effects_enable := false, no_emit_assets := false,
    incremental_rebuild_emit_asset := true,
    incremental_rebuild_make_state := none }

/-- Demo options with clean output enabled. -/
def demoOptionsClean : CompilerOptions :=
  { demoOptions with output := { demoOutput with clean := true } }

/-- Demo options with tree shaking and the side-effects optimization on. -/
def demoOptionsTS : CompilerOptions :=
  { demoOptions with tree_shaking_enable := true, side_effects_enable := true }

/-- Demo options carrying a non-first-generation incremental make state. -/
def demoOptionsRebuild : CompilerOptions :=
  { demoOptions with incremental_rebuild_make_state := some { is_first := false } }

/-- A demo compilation over the given assets. -/
def mkDemoCompilation (assets : List (String × CompilationAsset)) : Compilation :=
  { options := demoOptions, assets := assets, emitted_assets := [],
    entries := [], module_graph := { dependencies := [], modules := [1, 2] },
    used_symbol_ref := [], bailout_module_identifiers := [],
    side_effects_free_modules := [], module_item_map := [],
    include_module_ids := [], optimize_analyze_result_map := [],
    diagnostics := [] }

/-- A demo compiler over the given options, assets, recorded versions and
injected failing write paths. -/
def mkDemoCompiler (opts : CompilerOptions)
    (assets : List (String × CompilationAsset))
    (versions : List (String × String)) (failing : List String) : Compiler :=
  { options := opts, compilation := mkDemoCompilation assets,
    output_filesystem := { files := [], failingWrites := failing, ops := [] },
    emitted_asset_versions := versions, emitCalls := [],
    asset_emitted_events := [] }

/-- Demo for the version-skip claim: the one asset matches its recording. -/
def demoC1 : Compiler :=
  mkDemoCompiler demoOptions [("a.js", demoAsset1)] [("a.js", "v1")] []

/-- Demo for the full-clean claim: clean output, empty version map. -/
def demoC5 : Compiler :=
  mkDemoCompiler demoOptionsClean [("a.js", demoAsset1)] [] []

/-- Demo for stale pruning: clean output, one live and one stale record. -/
def demoC6 : Compiler :=
  mkDemoCompiler demoOptionsClean [("a.js", demoAsset1)]
    [("a.js", "v0"), ("old.js", "v0")] []

/-- Demo for fault isolation: three assets, the middle one's write fails. -/
def demoC7 : Compiler :=
  mkDemoCompiler demoOptions
    [("a.js", demoAsset1), ("b.js", demoAsset2), ("c.js", demoAsset3)] []
    [pathJoin "dist" "b.js"]

/-- Demo for version-map non-atomicity: the only asset's write fails. -/
def demoC9 : Compiler :=
  mkDemoCompiler demoOptions [("a.js", demoAsset1)] [] [pathJoin "dist" "a.js"]

/-- Demo for the sourceless-asset claim. -/
def demoC10 : Compiler :=
  mkDemoCompiler demoOptions [("n.js", demoAssetNone)] [] []

/-- A demo analysis result with recognizable contents. -/
def demoAnalyze : OptimizeAnalyzeResult :=
  { used_symbol_ref := [7], bail_out_module_identifiers := [8],
    side_effects_free_modules := [9], module_item_map := [(1, 2)],
    include_module_ids := [1], analyze_results := [(3, 4)] }

/-- The demo entry plugin. -/
def demoPlugin : EntryPlugin :=
  { name := "main", options := 0, entry_request := "./src/index.js" }

/-- A demo compilation seen by a non-first-generation incremental rebuild. -/
def demoCompilationRebuild : Compilation :=
  { mkDemoCompilation [] with options := demoOptionsRebuild }

/-- An empty force-build set. -/
def demoParam : MakeParam := MakeParam.forceBuildDeps []

/-- A raw single condition with an unrecognized type string. -/
def demoRawCondition : RawMinificationCondition :=
  { type := "bar", string_matcher := none, regexp_matcher := none }

/-- A raw aggregated condition with an unrecognized type string. -/
def demoRawConditions : RawMinificationConditions :=
  { type := "foo", string_matcher := none, regexp_matcher := none,
    array_matcher := none }

/-! ## Helper lemmas -/

theorem lookupAssoc_insertAssoc {α : Type} (m : List (String × α)) (k q : String)
    (v : α) :
    lookupAssoc (insertAssoc m k v) q = if k = q then some v else lookupAssoc m q := by
  induction m with
  | nil => simp [insertAssoc, lookupAssoc]
  | cons hd t ih =>
    obtain ⟨k₁, v₁⟩ := hd
    by_cases h1 : k₁ = k
    · subst h1
      simp [insertAssoc, lookupAssoc]
      by_cases h2 : k₁ = q <;> simp [h2]
    · simp [insertAssoc, lookupAssoc, h1]
      by_cases h2 : k₁ = q
      · subst h2
        have : ¬ k = k₁ := fun h => h1 h.symm
        simp [lookupAssoc, this]
      · simp [lookupAssoc, h2, ih]

theorem lookupAssoc_version_map (assets : List (String × CompilationAsset))
    (f : String) (a : CompilationAsset)
    (hnd : (assets.map Prod.fst).Nodup) (hmem : (f, a) ∈ assets) :
    lookupAssoc (assets.map (fun q => (q.1, q.2.version))) f = some a.version := by
  induction assets with
  | nil => cases hmem
  | cons hd t ih =>
    obtain ⟨k₁, a₁⟩ := hd
    simp only [List.map_cons, List.nodup_cons] at hnd
    rcases List.mem_cons.mp hmem with h | h
    · injection h with h1 h2
      subst h1; subst h2
      simp [lookupAssoc]
    · have hne : k₁ ≠ f := by
        intro hkf
        subst hkf
        exact hnd.1 (List.mem_map.mpr ⟨(k₁, a), h, rfl⟩)
      simp [lookupAssoc, hne]
      exact ih hnd.2 h

theorem emit_asset_preserves (st : Compiler) (p f : String) (a : CompilationAsset) :
    (st.emit_asset p f a).1.options = st.options
  ∧ (st.emit_asset p f a).1.emitted_asset_versions = st.emitted_asset_versions
  ∧ (st.emit_asset p f a).1.output_filesystem.failingWrites
      = st.output_filesystem.failingWrites
  ∧ (st.emit_asset p f a).1.emitCalls = st.emitCalls
  ∧ (st.emit_asset p f a).1.compilation.assets = st.compilation.assets := by
  unfold Compiler.emit_asset OutputFileSystem.write OutputFileSystem.create_dir_all
  cases a.source with
  | none => simp
  | some s =>
    by_cases hf : pathJoin p (stripQuery f) ∈ st.output_filesystem.failingWrites <;>
      simp [hf]

theorem emit_asset_result (st : Compiler) (p f : String) (a : CompilationAsset) :
    (st.emit_asset p f a).2
      = assetOutcome p st.output_filesystem.failingWrites f a := by
  unfold Compiler.emit_asset OutputFileSystem.write OutputFileSystem.create_dir_all
    assetOutcome
  cases a.source with
  | none => simp
  | some s =>
    by_cases hf : pathJoin p (stripQuery f) ∈ st.output_filesystem.failingWrites <;>
      simp [hf]

theorem emit_asset_ops (st : Compiler) (p f : String) (a : CompilationAsset) :
    (st.emit_asset p f a).1.output_filesystem.ops
      = st.output_filesystem.ops ++ assetOps p f a := by
  unfold Compiler.emit_asset OutputFileSystem.write OutputFileSystem.create_dir_all
    assetOps
  cases a.source with
  | none => simp
  | some s =>
    by_cases hf : pathJoin p (stripQuery f) ∈ st.output_filesystem.failingWrites <;>
      simp [hf]

theorem emitLoop_options (st : Compiler) (assets : List (String × CompilationAsset)) :
    (st.emitLoop assets).1.options = st.options := by
  induction assets generalizing st with
  | nil => simp [Compiler.emitLoop]
  | cons hd rest ih =>
    obtain ⟨filename, asset⟩ := hd
    by_cases hskip : skipsEmit st.emitted_asset_versions filename asset <;>
      simp [Compiler.emitLoop, hskip, ih,
        (emit_asset_preserves { st with emitCalls := st.emitCalls ++ [filename] }
          st.options.output.path filename asset).1]

theorem emitLoop_versions (st : Compiler) (assets : List (String × CompilationAsset)) :
    (st.emitLoop assets).1.emitted_asset_versions = st.emitted_asset_versions := by
  induction assets generalizing st with
  | nil => simp [Compiler.emitLoop]
  | cons hd rest ih =>
    obtain ⟨filename, asset⟩ := hd
    by_cases hskip : skipsEmit st.emitted_asset_versions filename asset <;>
      simp [Compiler.emitLoop, hskip, ih,
        (emit_asset_preserves { st with emitCalls := st.emitCalls ++ [filename] }
          st.options.output.path filename asset).2.1]

theorem emitLoop_failing (st : Compiler) (assets : List (String × CompilationAsset)) :
    (st.emitLoop assets).1.output_filesystem.failingWrites
      = st.output_filesystem.failingWrites := by
  induction assets generalizing st with
  | nil => simp [Compiler.emitLoop]
  | cons hd rest ih =>
    obtain ⟨filename, asset⟩ := hd
    by_cases hskip : skipsEmit st.emitted_asset_versions filename asset <;>
      simp [Compiler.emitLoop, hskip, ih,
        (emit_asset_preserves { st with emitCalls := st.emitCalls ++ [filename] }
          st.options.output.path filename asset).2.2.1]

theorem emitLoop_emitCalls (st : Compiler) (assets : List (String × CompilationAsset)) :
    (st.emitLoop assets).1.emitCalls
      = st.emitCalls ++ assets.filterMap (fun q =>
          if skipsEmit st.emitted_asset_versions q.1 q.2 then none else some q.1) := by
  induction assets generalizing st with
  | nil => simp [Compiler.emitLoop]
  | cons hd rest ih =>
    obtain ⟨filename, asset⟩ := hd
    have hpres := emit_asset_preserves { st with emitCalls := st.emitCalls ++ [filename] }
      st.options.output.path filename asset
    by_cases hskip : skipsEmit st.emitted_asset_versions filename asset
    · simp [Compiler.emitLoop, hskip, ih]
    · simp only [Compiler.emitLoop, hskip, Bool.false_eq_true, if_false,
        List.filterMap_cons, ih, hpres.2.1, hpres.2.2.2.1]
      simp [hskip]

theorem emitLoop_nv (st : Compiler) (assets : List (String × CompilationAsset)) :
    (st.emitLoop assets).2.1
      = (if st.options.incremental_rebuild_emit_asset then
          assets.map (fun q => (q.1, q.2.version)) else []) := by
  induction assets generalizing st with
  | nil => simp [Compiler.emitLoop]
  | cons hd rest ih =>
    obtain ⟨filename, asset⟩ := hd
    have hpres := emit_asset_preserves { st with emitCalls := st.emitCalls ++ [filename] }
      st.options.output.path filename asset
    by_cases hskip : skipsEmit st.emitted_asset_versions filename asset
    · by_cases hinc : st.options.incremental_rebuild_emit_asset <;>
        simp [Compiler.emitLoop, hskip, ih, hinc]
    · by_cases hinc : st.options.incremental_rebuild_emit_asset <;>
        simp [Compiler.emitLoop, hskip, ih, hinc, hpres.1]

theorem emitLoop_results (st : Compiler) (assets : List (String × CompilationAsset)) :
    (st.emitLoop assets).2.2
      = assets.filterMap (fun q =>
          if skipsEmit st.emitted_asset_versions q.1 q.2 then none
          else some (assetOutcome st.options.output.path
            st.output_filesystem.failingWrites q.1 q.2)) := by
  induction assets generalizing st with
  | nil => simp [Compiler.emitLoop]
  | cons hd rest ih =>
    obtain ⟨filename, asset⟩ := hd
    have hpres := emit_asset_preserves { st with emitCalls := st.emitCalls ++ [filename] }
      st.options.output.path filename asset
    have hres := emit_asset_result { st with emitCalls := st.emitCalls ++ [filename] }
      st.options.output.path filename asset
    by_cases hskip : skipsEmit st.emitted_asset_versions filename asset
    · simp [Compiler.emitLoop, hskip, ih]
    · simp only [Compiler.emitLoop, hskip, Bool.false_eq_true, if_false,
        List.filterMap_cons, ih, hpres.1, hpres.2.1, hpres.2.2.1, hres]

theorem emitLoop_ops (st : Compiler) (assets : List (String × CompilationAsset)) :
    (st.emitLoop assets).1.output_filesystem.ops
      = st.output_filesystem.ops
          ++ plannedOps st.options.output.path st.emitted_asset_versions assets := by
  induction assets generalizing st with
  | nil => simp [Compiler.emitLoop, plannedOps]
  | cons hd rest ih =>
    obtain ⟨filename, asset⟩ := hd
    have hpres := emit_asset_preserves { st with emitCalls := st.emitCalls ++ [filename] }
      st.options.output.path filename asset
    have hops := emit_asset_ops { st with emitCalls := st.emitCalls ++ [filename] }
      st.options.output.path filename asset
    by_cases hskip : skipsEmit st.emitted_asset_versions filename asset
    · simp [Compiler.emitLoop, hskip, ih, plannedOps]
    · simp only [Compiler.emitLoop, hskip, Bool.false_eq_true, if_false,
        ih, hpres.1, hpres.2.1, hpres.2.2.1, hops, plannedOps]
      simp [hskip]

theorem cleanStaleFiles_ops (fs : OutputFileSystem) (outputPath : String)
    (versions : List (String × String)) (assets : List (String × CompilationAsset)) :
    (cleanStaleFiles fs outputPath versions assets).ops
      = fs.ops ++ (versions.filter (fun fv =>
          !(assets.any (fun q => q.1 == fv.1)))).map
          (fun fv => FsOp.remove_file (pathJoin outputPath fv.1)) := by
  induction versions generalizing fs with
  | nil => simp [cleanStaleFiles]
  | cons hd rest ih =>
    obtain ⟨filename, v⟩ := hd
    by_cases h : assets.any (fun q => q.1 == filename) <;>
      simp [cleanStaleFiles, h, ih, OutputFileSystem.remove_file]

theorem cleanStaleFiles_failing (fs : OutputFileSystem) (outputPath : String)
    (versions : List (String × String)) (assets : List (String × CompilationAsset)) :
    (cleanStaleFiles fs outputPath versions assets).failingWrites = fs.failingWrites := by
  induction versions generalizing fs with
  | nil => simp [cleanStaleFiles]
  | cons hd rest ih =>
    obtain ⟨filename, v⟩ := hd
    by_cases h : assets.any (fun q => q.1 == filename) <;>
      simp [cleanStaleFiles, h, ih, OutputFileSystem.remove_file]

theorem firstError_eq_result (rs : List (Except FsError Unit)) :
    (match firstError rs with
      | Except.error e => Except.error e
      | Except.ok _ => Except.ok ()) = firstError rs := by
  induction rs with
  | nil => simp [firstError]
  | cons hd rest ih =>
    cases hd with
    | ok u => simpa [firstError] using ih
    | error e => simp [firstError]

theorem emit_assets_spec (c : Compiler) :
    (c.emit_assets).1.emitted_asset_versions
      = (if c.options.incremental_rebuild_emit_asset then
          c.compilation.assets.map (fun q => (q.1, q.2.version)) else [])
  ∧ (c.emit_assets).1.emitCalls
      = c.compilation.assets.filterMap (fun q =>
          if skipsEmit c.emitted_asset_versions q.1 q.2 then none else some q.1)
  ∧ (c.emit_assets).2
      = firstError (c.compilation.assets.filterMap (fun q =>
          if skipsEmit c.emitted_asset_versions q.1 q.2 then none
          else some (assetOutcome c.options.output.path
            c.output_filesystem.failingWrites q.1 q.2)))
  ∧ (c.emit_assets).1.output_filesystem.ops
      = cleanOps c ++ plannedOps c.options.output.path c.emitted_asset_versions
          c.compilation.assets := by
  unfold Compiler.emit_assets
  cases hfe : firstError (c.compilation.assets.filterMap (fun q =>
      if skipsEmit c.emitted_asset_versions q.1 q.2 then none
      else some (assetOutcome c.options.output.path
        c.output_filesystem.failingWrites q.1 q.2))) with
  | ok u =>
    by_cases hclean : c.options.output.clean <;>
      [skip; simp_all [emitLoop_emitCalls, emitLoop_nv, emitLoop_results,
        emitLoop_ops, cleanOps]]
    by_cases hemp : c.emitted_asset_versions.isEmpty <;>
      simp_all [emitLoop_emitCalls, emitLoop_nv, emitLoop_results, emitLoop_ops,
        cleanOps, OutputFileSystem.remove_dir_all, cleanStaleFiles_ops,
        cleanStaleFiles_failing]
  | error e =>
    by_cases hclean : c.options.output.clean <;>
      [skip; simp_all [emitLoop_emitCalls, emitLoop_nv, emitLoop_results,
        emitLoop_ops, cleanOps]]
    by_cases hemp : c.emitted_asset_versions.isEmpty <;>
      simp_all [emitLoop_emitCalls, emitLoop_nv, emitLoop_results, emitLoop_ops,
        cleanOps, OutputFileSystem.remove_dir_all, cleanStaleFiles_ops,
        cleanStaleFiles_failing]

theorem skipsEmit_iff (versions : List (String × String)) (f : String)
    (a : CompilationAsset) :
    skipsEmit versions f a = true
      ↔ (lookupAssoc versions f = some a.version ∧ a.version ≠ "") := by
  unfold skipsEmit
  cases h : lookupAssoc versions f with
  | none => simp
  | some old =>
    simp only [Bool.and_eq_true, decide_eq_true_eq, Option.some.injEq]
    constructor
    · rintro ⟨rfl, h2⟩; exact ⟨rfl, h2⟩
    · rintro ⟨rfl, h2⟩; exact ⟨rfl, h2⟩

theorem mem_filterMap_keys_sub (versions : List (String × String))
    (assets : List (String × CompilationAsset)) (f : String)
    (h : f ∈ assets.filterMap (fun q =>
      if skipsEmit versions q.1 q.2 then none else some q.1)) :
    f ∈ assets.map Prod.fst := by
  rcases List.mem_filterMap.mp h with ⟨q, hq, hval⟩
  have hqf : q.1 = f := by
    by_cases hs : skipsEmit versions q.1 q.2
    · simp [hs] at hval
    · simp [hs] at hval
      exact hval
  exact List.mem_map.mpr ⟨q, hq, hqf⟩

theorem mem_filterMap_keys (versions : List (String × String))
    (assets : List (String × CompilationAsset)) (f : String) (a : CompilationAsset)
    (hnd : (assets.map Prod.fst).Nodup) (hmem : (f, a) ∈ assets) :
    (f ∈ assets.filterMap (fun q =>
        if skipsEmit versions q.1 q.2 then none else some q.1))
      ↔ skipsEmit versions f a = false := by
  induction assets with
  | nil => cases hmem
  | cons hd rest ih =>
    obtain ⟨g, b⟩ := hd
    simp only [List.map_cons, List.nodup_cons] at hnd
    rcases List.mem_cons.mp hmem with h | h
    · injection h with h1 h2
      subst h1; subst h2
      by_cases hskip : skipsEmit versions f a
      · simp only [List.filterMap_cons, hskip, if_true, Bool.true_eq_false,
          iff_false]
        intro hcon
        exact hnd.1 (mem_filterMap_keys_sub versions rest f hcon)
      · simp [hskip]
    · have hg : g ≠ f := by
        intro hgf
        subst hgf
        exact hnd.1 (List.mem_map.mpr ⟨(g, a), h, rfl⟩)
      by_cases hskip : skipsEmit versions g b <;>
        simp [hskip, hg, Ne.symm hg, ih hnd.2 h]

theorem plannedOps_all_emit (path : String) (versions : List (String × String))
    (assets : List (String × CompilationAsset)) (op : FsOp)
    (h : op ∈ plannedOps path versions assets) : op.isEmitOp = true := by
  induction assets with
  | nil => simp [plannedOps] at h
  | cons hd rest ih =>
    obtain ⟨g, b⟩ := hd
    simp only [plannedOps, List.mem_append] at h
    rcases h with h | h
    · by_cases hskip : skipsEmit versions g b
      · simp [hskip] at h
      · simp only [hskip, Bool.false_eq_true, if_false, assetOps] at h
        cases hs : b.source with
        | none => simp [hs] at h
        | some s =>
          simp [hs] at h
          rcases h with rfl | rfl <;> rfl
    · exact ih h

theorem plannedOps_nil_of_skips (path : String) (versions : List (String × String))
    (assets : List (String × CompilationAsset))
    (h : ∀ q ∈ assets, skipsEmit versions q.1 q.2 = true) :
    plannedOps path versions assets = [] := by
  induction assets with
  | nil => simp [plannedOps]
  | cons hd rest ih =>
    obtain ⟨g, b⟩ := hd
    have hhd := h (g, b) (List.mem_cons_self _ _)
    simp only [plannedOps, hhd, if_true, List.nil_append]
    exact ih (fun q hq => h q (List.mem_cons_of_mem _ hq))

theorem write_mem_plannedOps (path : String) (versions : List (String × String))
    (assets : List (String × CompilationAsset)) (f : String) (a : CompilationAsset)
    (s : String) (hmem : (f, a) ∈ assets) (hsrc : a.source = some s)
    (hskip : skipsEmit versions f a = false) :
    FsOp.write (pathJoin path (stripQuery f)) s ∈ plannedOps path versions assets := by
  induction assets with
  | nil => cases hmem
  | cons hd rest ih =>
    obtain ⟨g, b⟩ := hd
    rcases List.mem_cons.mp hmem with h | h
    · injection h with h1 h2
      subst h1; subst h2
      simp [plannedOps, hskip, assetOps, hsrc]
    · simp only [plannedOps, List.mem_append]
      exact Or.inr (ih h)

theorem emit_asset_present_mono (st : Compiler) (p f : String)
    (a : CompilationAsset) (q : String)
    (h : (lookupAssoc st.output_filesystem.files q).isSome = true) :
    (lookupAssoc (st.emit_asset p f a).1.output_filesystem.files q).isSome = true := by
  unfold Compiler.emit_asset OutputFileSystem.write OutputFileSystem.create_dir_all
  cases a.source with
  | none => simpa using h
  | some s =>
    by_cases hf : pathJoin p (stripQuery f) ∈ st.output_filesystem.failingWrites
    · simpa [hf] using h
    · simp [hf, lookupAssoc_insertAssoc]
      by_cases he : pathJoin p (stripQuery f) = q
      · simp [he]
      · simp [he, h]

theorem emit_asset_present_self (st : Compiler) (p f : String)
    (a : CompilationAsset) (s : String) (hsrc : a.source = some s)
    (hfail : st.output_filesystem.failingWrites.contains
      (pathJoin p (stripQuery f)) = false) :
    lookupAssoc (st.emit_asset p f a).1.output_filesystem.files
      (pathJoin p (stripQuery f)) = some s := by
  unfold Compiler.emit_asset OutputFileSystem.write OutputFileSystem.create_dir_all
  have hf : pathJoin p (stripQuery f) ∉ st.output_filesystem.failingWrites := by
    simpa using hfail
  simp [hsrc, hf, lookupAssoc_insertAssoc]

theorem emitLoop_present_mono (st : Compiler)
    (assets : List (String × CompilationAsset)) (q : String)
    (h : (lookupAssoc st.output_filesystem.files q).isSome = true) :
    (lookupAssoc (st.emitLoop assets).1.output_filesystem.files q).isSome = true := by
  induction assets generalizing st with
  | nil => simpa [Compiler.emitLoop] using h
  | cons hd rest ih =>
    obtain ⟨g, b⟩ := hd
    by_cases hskip : skipsEmit st.emitted_asset_versions g b
    · simp only [Compiler.emitLoop, hskip, if_true]
      exact ih st h
    · simp only [Compiler.emitLoop, hskip, Bool.false_eq_true, if_false]
      exact ih _ (emit_asset_present_mono _ _ _ _ _ h)

theorem emitLoop_write_present (st : Compiler)
    (assets : List (String × CompilationAsset)) (f : String)
    (a : CompilationAsset) (s : String) (hmem : (f, a) ∈ assets)
    (hsrc : a.source = some s)
    (hskip : skipsEmit st.emitted_asset_versions f a = false)
    (hfail : st.output_filesystem.failingWrites.contains
      (pathJoin st.options.output.path (stripQuery f)) = false) :
    (lookupAssoc (st.emitLoop assets).1.output_filesystem.files
      (pathJoin st.options.output.path (stripQuery f))).isSome = true := by
  induction assets generalizing st with
  | nil => cases hmem
  | cons hd rest ih =>
    obtain ⟨g, b⟩ := hd
    rcases List.mem_cons.mp hmem with h | h
    · injection h with h1 h2
      subst h1; subst h2
      simp only [Compiler.emitLoop, hskip, Bool.false_eq_true, if_false]
      apply emitLoop_present_mono
      have := emit_asset_present_self
        { st with emitCalls := st.emitCalls ++ [f] }
        st.options.output.path f a s hsrc hfail
      simp [this]
    · by_cases hsk : skipsEmit st.emitted_asset_versions g b
      · simp only [Compiler.emitLoop, hsk, if_true]
        exact ih st h hskip hfail
      · simp only [Compiler.emitLoop, hsk, Bool.false_eq_true, if_false]
        have hpres := emit_asset_preserves
          { st with emitCalls := st.emitCalls ++ [g] } st.options.output.path g b
        have hih := ih ({ st with emitCalls := st.emitCalls ++ [g] }.emit_asset
            st.options.output.path g b).1 h
        rw [hpres.2.1] at hih
        have hih := hih hskip
        rw [hpres.1, hpres.2.2.1] at hih
        exact hih hfail

theorem emit_assets_fst (c : Compiler) :
    (c.emit_assets).1
      = { ((postClean c).emitLoop (postClean c).compilation.assets).1 with
          emitted_asset_versions :=
            ((postClean c).emitLoop (postClean c).compilation.assets).2.1 } := by
  unfold Compiler.emit_assets postClean
  dsimp only
  split <;> rfl

theorem postClean_fields (c : Compiler) :
    (postClean c).options = c.options
  ∧ (postClean c).emitted_asset_versions = c.emitted_asset_versions
  ∧ (postClean c).output_filesystem.failingWrites
      = c.output_filesystem.failingWrites
  ∧ (postClean c).compilation = c.compilation := by
  unfold postClean
  by_cases hclean : c.options.output.clean
  · by_cases hemp : c.emitted_asset_versions.isEmpty <;>
      simp [hclean, hemp, OutputFileSystem.remove_dir_all, cleanStaleFiles_failing]
  · simp [hclean]

theorem emit_assets_write_present (c : Compiler) (f : String)
    (a : CompilationAsset) (s : String)
    (hmem : (f, a) ∈ c.compilation.assets) (hsrc : a.source = some s)
    (hskip : skipsEmit c.emitted_asset_versions f a = false)
    (hfail : c.output_filesystem.failingWrites.contains
      (pathJoin c.options.output.path (stripQuery f)) = false) :
    (lookupAssoc (c.emit_assets).1.output_filesystem.files
      (pathJoin c.options.output.path (stripQuery f))).isSome = true := by
  have hpc := postClean_fields c
  have := emitLoop_write_present (postClean c) (postClean c).compilation.assets
    f a s (by rw [hpc.2.2.2]; exact hmem) hsrc
    (by rw [hpc.2.1]; exact hskip)
    (by rw [hpc.2.2.1, hpc.1]; exact hfail)
  rw [hpc.1] at this
  rw [emit_assets_fst]
  exact this

theorem mem_add_force_build (p : MakeParam) (id : Nat) (o : Option Nat) :
    (id, o) ∈ (p.add_force_build_dependency id o).deps := by
  cases p with
  | forceBuildDeps d =>
    by_cases h : (id, o) ∈ d <;>
      simp [MakeParam.add_force_build_dependency, MakeParam.deps, h]

theorem mem_add_force_build_mono (p : MakeParam) (id id2 : Nat) (o o2 : Option Nat)
    (h : (id, o) ∈ p.deps) : (id, o) ∈ (p.add_force_build_dependency id2 o2).deps := by
  cases p with
  | forceBuildDeps d =>
    by_cases h2 : (id2, o2) ∈ d <;>
      simp [MakeParam.add_force_build_dependency, MakeParam.deps, h2] <;>
      simp [MakeParam.deps] at h <;> simp [h]

theorem cleanOps_no_write (c : Compiler) (p s : String) :
    FsOp.write p s ∉ cleanOps c := by
  unfold cleanOps
  by_cases hclean : c.options.output.clean
  · by_cases hemp : c.emitted_asset_versions.isEmpty <;> simp [hclean, hemp]
  · simp [hclean]

theorem removedFileTargets_nil_of_emit (ops : List FsOp)
    (h : ∀ op ∈ ops, op.isEmitOp = true) : removedFileTargets ops = [] := by
  induction ops with
  | nil => rfl
  | cons hd rest ih =>
    have hhd := h hd (List.mem_cons_self _ _)
    have hrest := ih (fun op hop => h op (List.mem_cons_of_mem _ hop))
    cases hd <;> simp_all [removedFileTargets, FsOp.isEmitOp]

theorem removedFileTargets_append (a b : List FsOp) :
    removedFileTargets (a ++ b) = removedFileTargets a ++ removedFileTargets b := by
  simp [removedFileTargets]

theorem removedFileTargets_map_remove (l : List (String × String)) (path : String) :
    removedFileTargets (l.map (fun fv => FsOp.remove_file (pathJoin path fv.1)))
      = l.map (fun fv => pathJoin path fv.1) := by
  induction l with
  | nil => rfl
  | cons hd rest ih => simp [removedFileTargets] at ih ⊢; exact ih

/-! ## Claim theorems -/

/-- C2: in `compile`, the dependency-optimization/analysis step runs if and
only if global tree-shaking is enabled or the output's enabled library types
contain `"module"` or `"commonjs-static"` (the condition `specAnalysisGate`
states in the spec's words); when the gate is false, none of the analysis
fields of the compilation (used-symbol references, bailout set,
side-effect-free set, module-item map) are updated. -/
theorem compile_analysis_gate (options : CompilerOptions) (c0 : Compilation)
    (analyze : OptimizeAnalyzeResult) (analyzeDiagnostics : List Nat)
    (sealAssets : List (String × CompilationAsset))
    (pluginDiagnostics : List Nat) :
    (Compiler.compile options c0 analyze analyzeDiagnostics sealAssets
        pluginDiagnostics).ranOptimizeDependency = specAnalysisGate options
  ∧ (specAnalysisGate options = false →
      (Compiler.compile options c0 analyze analyzeDiagnostics sealAssets
          pluginDiagnostics).compilation.used_symbol_ref = c0.used_symbol_ref
      ∧ (Compiler.compile options c0 analyze analyzeDiagnostics sealAssets
          pluginDiagnostics).compilation.bailout_module_identifiers
            = c0.bailout_module_identifiers
      ∧ (Compiler.compile options c0 analyze analyzeDiagnostics sealAssets
          pluginDiagnostics).compilation.side_effects_free_modules
            = c0.side_effects_free_modules
      ∧ (Compiler.compile options c0 analyze analyzeDiagnostics sealAssets
          pluginDiagnostics).compilation.module_item_map = c0.module_item_map) := by
  unfold Compiler.compile specAnalysisGate
  cases hlib : options.output.enabled_library_types with
  | none =>
    by_cases hts : options.tree_shaking_enable <;>
      simp [hts, hlib, Compilation.push_batch_diagnostic]
  | some types =>
    by_cases hg : types.any (fun item => item == "module" || item == "commonjs-static") <;>
      by_cases hts : options.tree_shaking_enable <;>
        simp [hts, hg, hlib, Compilation.push_batch_diagnostic]

/-- C2 witness: with the demo options (no tree shaking, no library types)
the analysis does not run and the analysis fields stay untouched. -/
theorem compile_analysis_gate_witness :
    (Compiler.compile demoOptions (mkDemoCompilation []) demoAnalyze [] []
        []).ranOptimizeDependency = false
  ∧ (Compiler.compile demoOptions (mkDemoCompilation []) demoAnalyze [] []
        []).compilation.used_symbol_ref = [] := by
  have h := compile_analysis_gate demoOptions (mkDemoCompilation []) demoAnalyze [] [] []
  exact ⟨h.1.trans (by decide), (h.2 (by decide)).1.trans (by decide)⟩

/-- C3: after `compile`, `include_module_ids` equals the analysis result's
narrowed include set exactly when both tree-shaking and the side-effects
optimization are enabled; in every other case (including when the analysis
gate fires for library-type reasons alone) it equals the full set of module
identifiers of the module graph, which `compile` sets as the default before
the optimization gate. -/
theorem compile_include_module_ids (options : CompilerOptions) (c0 : Compilation)
    (analyze : OptimizeAnalyzeResult) (analyzeDiagnostics : List Nat)
    (sealAssets : List (String × CompilationAsset))
    (pluginDiagnostics : List Nat) :
    ((options.tree_shaking_enable = true ∧ options.side_effects_enable = true) →
      (Compiler.compile options c0 analyze analyzeDiagnostics sealAssets
          pluginDiagnostics).compilation.include_module_ids
        = analyze.include_module_ids)
  ∧ (¬(options.tree_shaking_enable = true ∧ options.side_effects_enable = true) →
      (Compiler.compile options c0 analyze analyzeDiagnostics sealAssets
          pluginDiagnostics).compilation.include_module_ids
        = c0.module_graph.modules) := by
  unfold Compiler.compile
  cases hlib : options.output.enabled_library_types with
  | none =>
    by_cases hts : options.tree_shaking_enable <;>
      by_cases hse : options.side_effects_enable <;>
        by_cases hd : analyzeDiagnostics.isEmpty <;>
          simp [hts, hse, hd, hlib, Compilation.push_batch_diagnostic]
  | some types =>
    by_cases hg : types.any (fun item => item == "module" || item == "commonjs-static") <;>
      by_cases hts : options.tree_shaking_enable <;>
        by_cases hse : options.side_effects_enable <;>
          by_cases hd : analyzeDiagnostics.isEmpty <;>
            simp [hts, hse, hd, hg, hlib, Compilation.push_batch_diagnostic]

/-- C3 witness: with tree shaking and side-effects both on, the narrowed set
is taken; with the demo options (both off), the default full set stays. -/
theorem compile_include_module_ids_witness :
    (Compiler.compile demoOptionsTS (mkDemoCompilation []) demoAnalyze [] []
        []).compilation.include_module_ids = [1]
  ∧ (Compiler.compile demoOptions (mkDemoCompilation []) demoAnalyze [] []
        []).compilation.include_module_ids = [1, 2] := by
  refine ⟨?_, ?_⟩
  · exact ((compile_include_module_ids demoOptionsTS (mkDemoCompilation [])
      demoAnalyze [] [] []).1 ⟨by decide, by decide⟩).trans (by decide)
  · exact ((compile_include_module_ids demoOptions (mkDemoCompilation [])
      demoAnalyze [] [] []).2 (by decide)).trans (by decide)

/-- C4: `EntryPlugin::make` adds its entry dependency to the module graph,
the named-entry table and the force-build set on a first-generation build
(no incremental make state, or a first-generation one); on an incremental
rebuild whose make state is not first-generation it returns without mutating
the compilation or the `MakeParam` at all, so no duplicate entry for the
same name is ever added. -/
theorem entry_plugin_make_once (p : EntryPlugin) (freshId : Nat)
    (c : Compilation) (param : MakeParam) :
    (∀ state, c.options.incremental_rebuild_make_state = some state →
      state.is_first = false →
      EntryPlugin.make p freshId c param = (c, param))
  ∧ ((c.options.incremental_rebuild_make_state = none
        ∨ c.options.incremental_rebuild_make_state = some { is_first := true }) →
      lookupAssoc (EntryPlugin.make p freshId c param).1.entries p.name
          = some (freshId, p.options)
      ∧ ({ id := freshId, request := p.entry_request } : EntryDependency)
          ∈ (EntryPlugin.make p freshId c param).1.module_graph.dependencies
      ∧ (freshId, (none : Option Nat))
          ∈ ((EntryPlugin.make p freshId c param).2).deps) := by
  cases hst : c.options.incremental_rebuild_make_state with
  | none =>
    refine ⟨?_, ?_⟩
    · intro state hsome
      cases hsome
    · intro _
      refine ⟨?_, ?_, ?_⟩
      · simp [EntryPlugin.make, hst, Compilation.add_entry, lookupAssoc_insertAssoc]
      · simp [EntryPlugin.make, hst, ModuleGraph.add_dependency]
      · simp only [EntryPlugin.make, hst]
        exact mem_add_force_build_mono _ _ _ _ _ (mem_add_force_build _ _ _)
  | some state =>
    by_cases hfirst : state.is_first
    · refine ⟨?_, ?_⟩
      · intro state2 hsome hfalse
        injection hsome with hse
        subst hse
        rw [hfirst] at hfalse
        cases hfalse
      · intro _
        refine ⟨?_, ?_, ?_⟩
        · simp [EntryPlugin.make, hst, hfirst, Compilation.add_entry,
            lookupAssoc_insertAssoc]
        · simp [EntryPlugin.make, hst, hfirst, ModuleGraph.add_dependency]
        · simp only [EntryPlugin.make, hst, hfirst, Bool.not_true,
            Bool.false_eq_true, if_false]
          exact mem_add_force_build_mono _ _ _ _ _ (mem_add_force_build _ _ _)
    · refine ⟨?_, ?_⟩
      · intro state2 hsome hfalse
        simp [EntryPlugin.make, hst, hfirst]
      · intro hcase
        rcases hcase with hcase | hcase
        · cases hcase
        · injection hcase with hse
          rw [hse] at hfirst
          simp at hfirst

/-- C4 witness: on a non-first-generation incremental rebuild the plugin
leaves everything untouched; on a fresh build the entry lands in the
named-entry table under its name. -/
theorem entry_plugin_make_once_witness :
    EntryPlugin.make demoPlugin 5 demoCompilationRebuild demoParam
        = (demoCompilationRebuild, demoParam)
  ∧ lookupAssoc
        (EntryPlugin.make demoPlugin 5 (mkDemoCompilation []) demoParam).1.entries
        "main"
      = some (5, 0) := by
  refine ⟨?_, ?_⟩
  · exact (entry_plugin_make_once demoPlugin 5 demoCompilationRebuild demoParam).1
      { is_first := false } (by decide) (by decide)
  · exact ((entry_plugin_make_once demoPlugin 5 (mkDemoCompilation []) demoParam).2
      (Or.inl (by decide))).1

/-- C1: in `emit_assets`, for every current asset that has a source, its
physical write (the invocation of `emit_asset`, traced in `emitCalls`) is
skipped if and only if a previously recorded version string exists for its
filename, is non-empty and equals the asset's current version exactly;
consequently, when every asset's version matches its previously recorded
non-empty version, the emission stage issues zero filesystem writes. -/
theorem emit_assets_version_skip (c : Compiler)
    (hnd : (c.compilation.assets.map Prod.fst).Nodup) :
    (∀ f a, (f, a) ∈ c.compilation.assets → a.source.isSome = true →
      ((f ∉ (c.emit_assets).1.emitCalls)
        ↔ (lookupAssoc c.emitted_asset_versions f = some a.version
            ∧ a.version ≠ "")))
  ∧ ((∀ q ∈ c.compilation.assets,
        lookupAssoc c.emitted_asset_versions q.1 = some q.2.version
          ∧ q.2.version ≠ "") →
      ∀ p s, FsOp.write p s ∉ (c.emit_assets).1.output_filesystem.ops) := by
  constructor
  · intro f a hmem _
    rw [(emit_assets_spec c).2.1]
    have h1 := mem_filterMap_keys c.emitted_asset_versions c.compilation.assets
      f a hnd hmem
    have h2 := skipsEmit_iff c.emitted_asset_versions f a
    constructor
    · intro hnot
      apply h2.mp
      cases hsk : skipsEmit c.emitted_asset_versions f a with
      | true => rfl
      | false => exact absurd (h1.mpr hsk) hnot
    · intro hlv hmemIn
      have hfalse := h1.mp hmemIn
      rw [h2.mpr hlv] at hfalse
      cases hfalse
  · intro hall p s hwmem
    rw [(emit_assets_spec c).2.2.2] at hwmem
    have hplan : plannedOps c.options.output.path c.emitted_asset_versions
        c.compilation.assets = [] :=
      plannedOps_nil_of_skips _ _ _
        (fun q hq => (skipsEmit_iff _ _ _).mpr (hall q hq))
    rw [hplan, List.append_nil] at hwmem
    exact cleanOps_no_write c p s hwmem

/-- C1 witness: the single asset's version matches its non-empty recorded
version, so `emit_asset` is never invoked for it. -/
theorem emit_assets_version_skip_witness :
    "a.js" ∉ (demoC1.emit_assets).1.emitCalls := by
  have h := (emit_assets_version_skip demoC1 (by decide)).1 "a.js" demoAsset1
    (by decide) (by decide)
  exact h.mpr ⟨by decide, by decide⟩

/-- C5: when clean output is configured and the emitted-asset version map is
empty, the first filesystem operation of the emission stage removes the
entire output directory recursively, and every later operation is a
directory creation or a write — in particular no per-file pruning
(`remove_file`) is ever attempted and the directory removal precedes every
asset write. -/
theorem emit_assets_full_clean (c : Compiler)
    (hclean : c.options.output.clean = true)
    (hemp : c.emitted_asset_versions = []) :
    ((c.emit_assets).1.output_filesystem.ops).head?
        = some (FsOp.remove_dir_all c.options.output.path)
  ∧ ∀ op ∈ ((c.emit_assets).1.output_filesystem.ops).tail,
      op.isEmitOp = true := by
  have hops := (emit_assets_spec c).2.2.2
  have hclean2 : cleanOps c = [FsOp.remove_dir_all c.options.output.path] := by
    unfold cleanOps
    simp [hclean, hemp]
  rw [hops, hclean2]
  constructor
  · rfl
  · intro op hop
    exact plannedOps_all_emit _ _ _ op (by simpa using hop)

/-- C5 witness: with clean output and an empty version map the demo
compiler's first operation wipes `"dist"`. -/
theorem emit_assets_full_clean_witness :
    ((demoC5.emit_assets).1.output_filesystem.ops).head?
      = some (FsOp.remove_dir_all "dist") :=
  (emit_assets_full_clean demoC5 (by decide) (by decide)).1

/-- C6: when clean output is configured and the version map is non-empty,
the files removed by the emission stage are exactly the previously recorded
filenames that are absent from the current asset set (resolved against the
output path, in map order), and the output directory is never wiped. -/
theorem emit_assets_stale_pruning (c : Compiler)
    (hclean : c.options.output.clean = true)
    (hne : c.emitted_asset_versions ≠ []) :
    removedFileTargets (c.emit_assets).1.output_filesystem.ops
        = (c.emitted_asset_versions.filter (fun fv =>
            !(c.compilation.assets.any (fun q => q.1 == fv.1)))).map
            (fun fv => pathJoin c.options.output.path fv.1)
  ∧ ∀ p2, FsOp.remove_dir_all p2 ∉ (c.emit_assets).1.output_filesystem.ops := by
  have hops := (emit_assets_spec c).2.2.2
  have hemp : ¬ c.emitted_asset_versions.isEmpty = true := by
    simpa using hne
  have hclean2 : cleanOps c = (c.emitted_asset_versions.filter (fun fv =>
      !(c.compilation.assets.any (fun q => q.1 == fv.1)))).map
      (fun fv => FsOp.remove_file (pathJoin c.options.output.path fv.1)) := by
    unfold cleanOps
    simp [hclean, hemp]
  rw [hops, hclean2]
  constructor
  · rw [removedFileTargets_append, removedFileTargets_map_remove,
      removedFileTargets_nil_of_emit _
        (fun op hop => plannedOps_all_emit _ _ _ op hop),
      List.append_nil]
  · intro p2 hmem
    rcases List.mem_append.mp hmem with h | h
    · rcases List.mem_map.mp h with ⟨fv, _, hcon⟩
      cases hcon
    · have hemit := plannedOps_all_emit _ _ _ _ h
      simp [FsOp.isEmitOp] at hemit

/-- C6 witness: the stale recording `"old.js"` is pruned from `"dist"` and
nothing else is targeted for removal. -/
theorem emit_assets_stale_pruning_witness :
    removedFileTargets (demoC6.emit_assets).1.output_filesystem.ops
      = [pathJoin "dist" "old.js"] :=
  ((emit_assets_stale_pruning demoC6 (by decide) (by decide)).1).trans (by decide)

/-- C7: asset writes are settled independently — the value `emit_assets`
returns is the first error (in asset order) of the per-asset outcomes, each
computed from that asset alone; and every non-skipped asset with a source
whose own write does not fail is still physically written (its write
operation is issued and its file is present afterwards), regardless of any
other asset's failure. -/
theorem emit_assets_fault_isolation (c : Compiler) :
    (c.emit_assets).2
        = firstError (c.compilation.assets.filterMap (fun q =>
            if skipsEmit c.emitted_asset_versions q.1 q.2 then none
            else some (assetOutcome c.options.output.path
              c.output_filesystem.failingWrites q.1 q.2)))
  ∧ ∀ f a s, (f, a) ∈ c.compilation.assets → a.source = some s →
      skipsEmit c.emitted_asset_versions f a = false →
      c.output_filesystem.failingWrites.contains
          (pathJoin c.options.output.path (stripQuery f)) = false →
      (FsOp.write (pathJoin c.options.output.path (stripQuery f)) s
          ∈ (c.emit_assets).1.output_filesystem.ops
        ∧ (lookupAssoc (c.emit_assets).1.output_filesystem.files
            (pathJoin c.options.output.path (stripQuery f))).isSome = true) := by
  constructor
  · exact (emit_assets_spec c).2.2.1
  · intro f a s hmem hsrc hskip hfail
    refine ⟨?_, emit_assets_write_present c f a s hmem hsrc hskip hfail⟩
    rw [(emit_assets_spec c).2.2.2]
    exact List.mem_append_right _
      (write_mem_plannedOps _ _ _ f a s hmem hsrc hskip)

/-- C7 witness: three assets, the middle one's write fails — the other two
are still written and the reported error is the failing one's. -/
theorem emit_assets_fault_isolation_witness :
    (demoC7.emit_assets).2
        = Except.error (FsError.writeFailed (pathJoin "dist" "b.js"))
  ∧ FsOp.write (pathJoin "dist" (stripQuery "a.js")) "content-a"
        ∈ (demoC7.emit_assets).1.output_filesystem.ops
  ∧ (lookupAssoc (demoC7.emit_assets).1.output_filesystem.files
        (pathJoin "dist" (stripQuery "c.js"))).isSome = true := by
  refine ⟨?_, ?_, ?_⟩
  · exact ((emit_assets_fault_isolation demoC7).1).trans (by rfl)
  · exact ((emit_assets_fault_isolation demoC7).2 "a.js" demoAsset1 "content-a"
      (by decide) (by decide) (by decide) (by decide)).1
  · exact ((emit_assets_fault_isolation demoC7).2 "c.js" demoAsset3 "content-c"
      (by decide) (by decide) (by decide) (by decide)).2

/-- C9: `emit_assets` replaces `emitted_asset_versions` with the freshly
built map before inspecting the write results, so the replacement holds
unconditionally — in particular even when `emit_assets` returns an error the
map records the current version of every asset, the failed one included; and
when incremental-rebuild asset emission is disabled the map is replaced by
the empty map after every build. -/
theorem emit_assets_version_map_nonatomic (c : Compiler)
    (hnd : (c.compilation.assets.map Prod.fst).Nodup) :
    (c.options.incremental_rebuild_emit_asset = true →
      ∀ f a, (f, a) ∈ c.compilation.assets →
        lookupAssoc (c.emit_assets).1.emitted_asset_versions f
          = some a.version)
  ∧ (c.options.incremental_rebuild_emit_asset = false →
      (c.emit_assets).1.emitted_asset_versions = []) := by
  have hv := (emit_assets_spec c).1
  constructor
  · intro hinc f a hmem
    rw [hv]
    simp only [hinc, if_true]
    exact lookupAssoc_version_map _ _ _ hnd hmem
  · intro hinc
    rw [hv]
    simp [hinc]

/-- C9 witness: the demo's only write fails and `emit_assets` reports the
error, yet the failed asset's current version is already recorded in the
replaced map. -/
theorem emit_assets_version_map_nonatomic_witness :
    (demoC9.emit_assets).2
        = Except.error (FsError.writeFailed (pathJoin "dist" "a.js"))
  ∧ lookupAssoc (demoC9.emit_assets).1.emitted_asset_versions "a.js"
        = some "v1" := by
  refine ⟨by rfl, ?_⟩
  exact (emit_assets_version_map_nonatomic demoC9 (by decide)).1 (by decide)
    "a.js" demoAsset1 (by decide)

/-- C10: `emit_asset` on an asset whose `get_source()` is `none` performs no
filesystem operation, inserts nothing into the emitted-asset set, fires no
`asset_emitted` event and returns success (the state is returned untouched);
yet with incremental-rebuild asset emission enabled, `emit_assets` still
records such an asset's filename and version in the new version map. -/
theorem emit_asset_sourceless (st : Compiler) (p f : String)
    (a : CompilationAsset) (hsrc : a.source = none) (c : Compiler)
    (f2 : String) (a2 : CompilationAsset)
    (hmem : (f2, a2) ∈ c.compilation.assets) (_hsrc2 : a2.source = none)
    (hnd : (c.compilation.assets.map Prod.fst).Nodup)
    (hinc : c.options.incremental_rebuild_emit_asset = true) :
    st.emit_asset p f a = (st, Except.ok ())
  ∧ lookupAssoc (c.emit_assets).1.emitted_asset_versions f2
      = some a2.version := by
  constructor
  · unfold Compiler.emit_asset
    simp [hsrc]
  · rw [(emit_assets_spec c).1]
    simp only [hinc, if_true]
    exact lookupAssoc_version_map _ _ _ hnd hmem

/-- C10 witness: the demo sourceless asset leaves the state untouched with
success, and its version still lands in the fresh version map. -/
theorem emit_asset_sourceless_witness :
    demoC10.emit_asset "dist" "n.js" demoAssetNone
        = (demoC10, Except.ok ())
  ∧ lookupAssoc (demoC10.emit_assets).1.emitted_asset_versions "n.js"
        = some "v9" :=
  emit_asset_sourceless demoC10 "dist" "n.js" demoAssetNone (by decide)
    demoC10 "n.js" demoAssetNone (by decide) (by decide) (by decide) (by decide)

/-- C8 counterexample: converting a single raw condition whose type string
is the unrecognized `"function"` does not produce the claimed recoverable
internal error — the conversion panics (and does not succeed either), so the
claim as stated is false at this input. -/
theorem minification_condition_unknown_counterexample :
    isInternalError (MinificationCondition.try_from okRegexBuilder
        { type := "function", string_matcher := none, regexp_matcher := none })
      = false
  ∧ isOkResult (MinificationCondition.try_from okRegexBuilder
        { type := "function", string_matcher := none, regexp_matcher := none })
      = false
  ∧ MinificationCondition.try_from okRegexBuilder
        { type := "function", string_matcher := none, regexp_matcher := none }
      = Except.error (ConvError.panicked
          "Failed to resolve the condition type function. Expected type is `string`, `regexp` or `array`.") := by
  refine ⟨by rfl, by rfl, by rfl⟩

/-- C8 amended: converting a raw minification condition whose type string is
not one of the recognized kinds (`"string"`, `"regexp"`, `"array"` for
`RawMinificationConditions`; `"string"`, `"regexp"` for
`RawMinificationCondition`) fails the whole conversion immediately — by a
panic carrying a descriptive message, not by the recoverable internal error
used for missing matchers — and is never silently ignored. -/
theorem minification_condition_unknown_panics
    (regexNew : String → Except ConvError RspackRegex)
    (x : RawMinificationCondition) (y : RawMinificationConditions)
    (hx1 : x.type ≠ "string") (hx2 : x.type ≠ "regexp")
    (hy1 : y.type ≠ "string") (hy2 : y.type ≠ "regexp")
    (hy3 : y.type ≠ "array") :
    MinificationCondition.try_from regexNew x
        = Except.error (ConvError.panicked
            ("Failed to resolve the condition type " ++ x.type
              ++ ". Expected type is `string`, `regexp` or `array`."))
  ∧ MinificationConditions.try_from regexNew y
        = Except.error (ConvError.panicked
            ("Failed to resolve the MinificationContions type " ++ y.type
              ++ ". Expected type is `string`, `regexp`, `array`.")) := by
  unfold MinificationCondition.try_from MinificationConditions.try_from
  simp [hx1, hx2, hy1, hy2, hy3]

/-- C8 witness: the aggregated conversion of the demo unrecognized type
`"foo"` panics with the source's (typo-carrying) message. -/
theorem minification_condition_unknown_panics_witness :
    MinificationConditions.try_from okRegexBuilder demoRawConditions
      = Except.error (ConvError.panicked
          ("Failed to resolve the MinificationContions type " ++ "foo"
            ++ ". Expected type is `string`, `regexp`, `array`.")) :=
  (minification_condition_unknown_panics okRegexBuilder demoRawCondition
    demoRawConditions (by decide) (by decide) (by decide) (by decide)
    (by decide)).2
